import Mathlib

/-!
Verification of the tinyhci CC3000 host driver (src/tinyhci.cpp) against its
natural-language specification.

The driver is shallowly embedded: the shared driver globals become the fields
of a single state structure `Hci`, the SPI link becomes an incoming byte list
`rx` (bytes the device will produce, consumed from the front) together with an
outgoing byte log `tx` (bytes the host has clocked out, appended at the back),
and every codec / framing function of the C source becomes a pure Lean
function on `Hci`.  Machine integers are modelled as `Nat` with explicit
`% 256` / `% 65536` / `% 4294967296` reductions at the points where the C
types truncate.  Two ghost fields instrument externally observable actions
that the C code performs by calling out of the module: `callbacks` logs every
`wifi_callback(event, arg)` invocation and `end_receive_count` counts the
calls to `hci_end_receive`.

Busy-wait loops whose exit condition is changed concurrently by the interrupt
handler (the command/response deadline wait of hci_end_command_begin_receive
and the full-pool wait of closesocket) are modelled with oracles: a function
giving the value the loop observes at each poll iteration, and `Nat.find` for
the first iteration at which the loop condition lets it exit.  The millis()
timer is modelled as an unbounded monotone counter sampled once per call; the
32-bit wraparound of millis() after ~49 days is outside the model.
-/

set_option linter.unusedVariables false

/-- Driver state: the globals of src/tinyhci.cpp (lines 49-67) plus the two
wire-byte logs and two ghost instrumentation fields. -/
structure Hci where
  /-- Bytes the CC3000 will clock in on SPI, consumed from the front; a
  depleted list yields 0 bytes (an idle bus line). -/
  rx : List Nat
  /-- Bytes the host has clocked out on SPI, in order. -/
  tx : List Nat
  /-- hci_payload_size (uint16_t), line 64. -/
  payload_size : Nat
  /-- hci_pad (uint8_t used as a flag), line 65. -/
  pad : Bool
  /-- hci_pending_event (uint16_t), line 58. -/
  pending_event : Nat
  /-- hci_pending_event_available (uint8_t flag), line 57. -/
  pending_event_available : Bool
  /-- hci_data_available (uint8_t flag), line 56. -/
  data_available : Bool
  /-- wifi_connected (uint8_t), line 49. -/
  wifi_connected : Nat
  /-- wifi_dhcp (uint8_t), line 50. -/
  wifi_dhcp : Nat
  /-- ip_addr[0], line 51. -/
  ip_addr0 : Nat
  /-- ip_addr[1]. -/
  ip_addr1 : Nat
  /-- ip_addr[2]. -/
  ip_addr2 : Nat
  /-- ip_addr[3]. -/
  ip_addr3 : Nat
  /-- hci_buffer_count (uint8_t), line 61. -/
  buffer_count : Nat
  /-- hci_available_buffer_count (uint8_t), line 62. -/
  available_buffer_count : Nat
  /-- Ghost log of all wifi_callback(event, arg) invocations. -/
  callbacks : List (Nat × Nat)
  /-- Ghost count of hci_end_receive calls. -/
  end_receive_count : Nat
deriving DecidableEq

/-- HCI_READ opcode (line 75). -/
def HCI_READ : Nat := 0x3
/-- HCI_WRITE opcode (line 76). -/
def HCI_WRITE : Nat := 0x1
/-- HCI_TYPE_CMND (line 78). -/
def HCI_TYPE_CMND : Nat := 0x1
/-- HCI_TYPE_DATA (line 79). -/
def HCI_TYPE_DATA : Nat := 0x2
/-- HCI_TYPE_EVNT (line 81). -/
def HCI_TYPE_EVNT : Nat := 0x4
/-- HCI_CMND_SOCKET (line 96). -/
def HCI_CMND_SOCKET : Nat := 0x1001
/-- HCI_CMND_CONNECT (line 101). -/
def HCI_CMND_CONNECT : Nat := 0x1007
/-- HCI_CMND_CLOSE_SOCKET (line 104). -/
def HCI_CMND_CLOSE_SOCKET : Nat := 0x100B
/-- HCI_CMND_RECV (line 98). -/
def HCI_CMND_RECV : Nat := 0x1004
/-- HCI_CMND_SEND (line 91). -/
def HCI_CMND_SEND : Nat := 0x0081

/-- Modelled from the spec: the unsolicited-event code constants used by
hci_dispatch_event come from the header tinyhci.h, which is not under src/.
The values below are the standard CC3000 event codes; the development depends
only on these codes being pairwise distinct. -/
def HCI_EVNT_WLAN_UNSOL_CONNECT : Nat := 0x8001

/-- Modelled from the spec: disconnect event code from tinyhci.h (not under
src/). -/
def HCI_EVNT_WLAN_UNSOL_DISCONNECT : Nat := 0x8002

/-- Modelled from the spec: DHCP-bound event code from tinyhci.h (not under
src/). -/
def HCI_EVNT_WLAN_UNSOL_DHCP : Nat := 0x8010

/-- Modelled from the spec: TCP close-wait event code from tinyhci.h (not
under src/). -/
def HCI_EVNT_WLAN_UNSOL_TCP_CLOSE_WAIT : Nat := 0x8800

/-- Modelled from the spec: "buffers freed" event code from tinyhci.h (not
under src/). -/
def HCI_EVNT_DATA_UNSOL_FREE_BUFF : Nat := 0x4100

/-- Modelled from the spec: AF_INET from tinyhci.h (not under src/); the
standard CC3000 value.  The theorems below hold for arbitrary argument
values, so the exact number is immaterial. -/
def AF_INET : Nat := 2

/-- Modelled from the spec: SOCK_STREAM from tinyhci.h (not under src/). -/
def SOCK_STREAM : Nat := 1

/-- Modelled from the spec: the EFAIL failure code returned by connect and
gethostbyname comes from tinyhci.h (not under src/); it is used here only as
an opaque failure sentinel, so its exact value is immaterial. -/
def EFAIL : Int := -1

/-- hci_transfer (lines 141-153): full-duplex exchange of one byte.  The
outgoing byte is logged in tx (reduced to a byte, as the C parameter type
uint8_t does); the incoming byte is the front of rx, or 0 on a depleted
list. -/
def hci_transfer (s : Hci) (out : Nat) : Nat × Hci :=
  ((s.rx.headD 0) % 256, { s with rx := s.rx.tail, tx := s.tx ++ [out % 256] })

/-- hci_read_u8 (lines 161-173): reads one byte through the payload bound;
with an exhausted payload counter it returns 0 and touches nothing. -/
def hci_read_u8 (s : Hci) : Nat × Hci :=
  if 0 < s.payload_size then
    hci_transfer { s with payload_size := s.payload_size - 1 } 0
  else
    (0, s)

/-- hci_read_u16_le (lines 175-181).  The source combines the two bytes with
bitwise or of disjoint lanes (b0 | b1 << 8); since hci_read_u8 always yields
a value < 256 this equals b0 + 256 * b1, which is the form used here. -/
def hci_read_u16_le (s : Hci) : Nat × Hci :=
  let b0 := (hci_read_u8 s).1
  let s1 := (hci_read_u8 s).2
  let b1 := (hci_read_u8 s1).1
  let s2 := (hci_read_u8 s1).2
  (b0 + 256 * b1, s2)

/-- hci_read_u32_le (lines 183-193), same byte-lane convention as
hci_read_u16_le. -/
def hci_read_u32_le (s : Hci) : Nat × Hci :=
  let b0 := (hci_read_u8 s).1
  let s1 := (hci_read_u8 s).2
  let b1 := (hci_read_u8 s1).1
  let s2 := (hci_read_u8 s1).2
  let b2 := (hci_read_u8 s2).1
  let s3 := (hci_read_u8 s2).2
  let b3 := (hci_read_u8 s3).1
  let s4 := (hci_read_u8 s3).2
  (b0 + 256 * b1 + 65536 * b2 + 16777216 * b3, s4)

/-- hci_write_u8 (lines 212-220): writes one byte through the payload bound;
with an exhausted counter the byte is silently dropped. -/
def hci_write_u8 (s : Hci) (v : Nat) : Hci :=
  if 0 < s.payload_size then
    (hci_transfer { s with payload_size := s.payload_size - 1 } v).2
  else
    s

/-- hci_write_u16_le (lines 222-227). -/
def hci_write_u16_le (s : Hci) (v : Nat) : Hci :=
  hci_write_u8 (hci_write_u8 s (v % 256)) (v / 256 % 256)

/-- hci_write_u32_le (lines 229-236): the byte lanes of the uint32_t value,
least significant first. -/
def hci_write_u32_le (s : Hci) (v : Nat) : Hci :=
  hci_write_u8 (hci_write_u8 (hci_write_u8 (hci_write_u8 s
    (v % 256)) (v / 256 % 256)) (v / 65536 % 256)) (v / 16777216 % 256)

/-- hci_write_array (lines 238-248): the bytes at the data pointer, written
front to back through hci_write_u8. -/
def hci_write_list (s : Hci) (bytes : List Nat) : Hci :=
  bytes.foldl hci_write_u8 s

/-- One drain step per unit of fuel; with fuel = payload_size this is exactly
the loop `while (hci_payload_size) hci_read_u8();` of hci_end_receive
(lines 296-297), since every iteration with a positive counter decrements it
by one. -/
def hci_drainFuel (s : Hci) : Nat → Hci
  | 0 => s
  | n + 1 => if 0 < s.payload_size then hci_drainFuel (hci_read_u8 s).2 n else s

/-- hci_end_receive (lines 287-306): discard the unread remainder of the
frame, then deassert chip select and wait for IRQ deassertion (no bytes move
during that wait).  The ghost counter records the call. -/
def hci_end_receive (s : Hci) : Hci :=
  let s' := hci_drainFuel s s.payload_size
  { s' with end_receive_count := s'.end_receive_count + 1 }

-- Projection lemmas for hci_transfer and hci_read_u8: the fields a bounded
-- read can never touch.

@[simp] theorem hci_read_u8_pending_event (s : Hci) :
    (hci_read_u8 s).2.pending_event = s.pending_event := by
  rw [hci_read_u8]; split <;> simp [hci_transfer]

@[simp] theorem hci_read_u8_pending_event_available (s : Hci) :
    (hci_read_u8 s).2.pending_event_available = s.pending_event_available := by
  rw [hci_read_u8]; split <;> simp [hci_transfer]

@[simp] theorem hci_read_u8_data_available (s : Hci) :
    (hci_read_u8 s).2.data_available = s.data_available := by
  rw [hci_read_u8]; split <;> simp [hci_transfer]

@[simp] theorem hci_read_u8_buffer_count (s : Hci) :
    (hci_read_u8 s).2.buffer_count = s.buffer_count := by
  rw [hci_read_u8]; split <;> simp [hci_transfer]

@[simp] theorem hci_read_u8_available_buffer_count (s : Hci) :
    (hci_read_u8 s).2.available_buffer_count = s.available_buffer_count := by
  rw [hci_read_u8]; split <;> simp [hci_transfer]

@[simp] theorem hci_read_u8_callbacks (s : Hci) :
    (hci_read_u8 s).2.callbacks = s.callbacks := by
  rw [hci_read_u8]; split <;> simp [hci_transfer]

@[simp] theorem hci_read_u8_end_receive_count (s : Hci) :
    (hci_read_u8 s).2.end_receive_count = s.end_receive_count := by
  rw [hci_read_u8]; split <;> simp [hci_transfer]

@[simp] theorem hci_read_u8_pad (s : Hci) :
    (hci_read_u8 s).2.pad = s.pad := by
  rw [hci_read_u8]; split <;> simp [hci_transfer]

@[simp] theorem hci_read_u8_wifi_connected (s : Hci) :
    (hci_read_u8 s).2.wifi_connected = s.wifi_connected := by
  rw [hci_read_u8]; split <;> simp [hci_transfer]

@[simp] theorem hci_read_u8_wifi_dhcp (s : Hci) :
    (hci_read_u8 s).2.wifi_dhcp = s.wifi_dhcp := by
  rw [hci_read_u8]; split <;> simp [hci_transfer]

@[simp] theorem hci_read_u16_le_snd (s : Hci) :
    (hci_read_u16_le s).2 = (hci_read_u8 (hci_read_u8 s).2).2 := rfl

@[simp] theorem hci_read_u32_le_snd (s : Hci) :
    (hci_read_u32_le s).2 =
      (hci_read_u8 (hci_read_u8 (hci_read_u8 (hci_read_u8 s).2).2).2).2 := rfl

@[simp] theorem hci_write_u8_pending_event (s : Hci) (v : Nat) :
    (hci_write_u8 s v).pending_event = s.pending_event := by
  rw [hci_write_u8]; split <;> simp [hci_transfer]

@[simp] theorem hci_write_u8_buffer_count (s : Hci) (v : Nat) :
    (hci_write_u8 s v).buffer_count = s.buffer_count := by
  rw [hci_write_u8]; split <;> simp [hci_transfer]

@[simp] theorem hci_write_u8_available_buffer_count (s : Hci) (v : Nat) :
    (hci_write_u8 s v).available_buffer_count = s.available_buffer_count := by
  rw [hci_write_u8]; split <;> simp [hci_transfer]

@[simp] theorem hci_write_u8_callbacks (s : Hci) (v : Nat) :
    (hci_write_u8 s v).callbacks = s.callbacks := by
  rw [hci_write_u8]; split <;> simp [hci_transfer]

@[simp] theorem hci_write_u8_end_receive_count (s : Hci) (v : Nat) :
    (hci_write_u8 s v).end_receive_count = s.end_receive_count := by
  rw [hci_write_u8]; split <;> simp [hci_transfer]

/-- A bounded read with a known next byte: consumes exactly the head of rx
and one unit of payload. -/
theorem hci_read_u8_cons (s : Hci) (b : Nat) (r : List Nat)
    (hrx : s.rx = b :: r) (hp : 0 < s.payload_size) :
    hci_read_u8 s =
      (b % 256, { s with payload_size := s.payload_size - 1,
                         rx := r, tx := s.tx ++ [0] }) := by
  rw [hci_read_u8, if_pos hp]
  simp [hci_transfer, hrx]

/-- A bounded read at an exhausted payload counter is the identity. -/
theorem hci_read_u8_exhausted (s : Hci) (hp : s.payload_size = 0) :
    hci_read_u8 s = (0, s) := by
  rw [hci_read_u8, if_neg (by omega)]

/-- The drain loop empties the payload counter and leaves every field other
than the link position untouched, provided the fuel covers the counter (the
source loop runs exactly payload_size iterations). -/
theorem hci_drainFuel_spec : ∀ (n : Nat) (s : Hci), s.payload_size ≤ n →
    (hci_drainFuel s n).payload_size = 0 ∧
    (hci_drainFuel s n).callbacks = s.callbacks ∧
    (hci_drainFuel s n).end_receive_count = s.end_receive_count ∧
    (hci_drainFuel s n).pending_event = s.pending_event ∧
    (hci_drainFuel s n).pending_event_available = s.pending_event_available ∧
    (hci_drainFuel s n).available_buffer_count = s.available_buffer_count ∧
    (hci_drainFuel s n).buffer_count = s.buffer_count := by
  intro n
  induction n with
  | zero =>
      intro s h
      refine ⟨by simp only [hci_drainFuel]; omega, rfl, rfl, rfl, rfl, rfl, rfl⟩
  | succ n ih =>
      intro s h
      rw [hci_drainFuel]
      split
      · rename_i hpos
        have hdec : (hci_read_u8 s).2.payload_size = s.payload_size - 1 := by
          rw [hci_read_u8, if_pos hpos]; simp [hci_transfer]
        obtain ⟨h1, h2, h3, h4, h5, h6, h7⟩ := ih (hci_read_u8 s).2 (by omega)
        refine ⟨h1, ?_, ?_, ?_, ?_, ?_, ?_⟩
        · rw [h2, hci_read_u8_callbacks]
        · rw [h3, hci_read_u8_end_receive_count]
        · rw [h4, hci_read_u8_pending_event]
        · rw [h5, hci_read_u8_pending_event_available]
        · rw [h6, hci_read_u8_available_buffer_count]
        · rw [h7, hci_read_u8_buffer_count]
      · rename_i hz
        refine ⟨by omega, rfl, rfl, rfl, rfl, rfl, rfl⟩

@[simp] theorem hci_end_receive_payload (s : Hci) :
    (hci_end_receive s).payload_size = 0 := by
  rw [hci_end_receive]
  exact (hci_drainFuel_spec s.payload_size s le_rfl).1

@[simp] theorem hci_end_receive_callbacks (s : Hci) :
    (hci_end_receive s).callbacks = s.callbacks := by
  rw [hci_end_receive]
  exact (hci_drainFuel_spec s.payload_size s le_rfl).2.1

@[simp] theorem hci_end_receive_count_eq (s : Hci) :
    (hci_end_receive s).end_receive_count = s.end_receive_count + 1 := by
  rw [hci_end_receive]
  simp [(hci_drainFuel_spec s.payload_size s le_rfl).2.2.1]

@[simp] theorem hci_end_receive_available_buffer_count (s : Hci) :
    (hci_end_receive s).available_buffer_count = s.available_buffer_count := by
  rw [hci_end_receive]
  simp [(hci_drainFuel_spec s.payload_size s le_rfl).2.2.2.2.2.1]

-- Write-side specification lemmas.

/-- The four byte lanes of a uint32_t value, least significant first: what a
hci_write_u32_le call puts on the wire. -/
def u32le (v : Nat) : List Nat :=
  [v % 256, v / 256 % 256, v / 65536 % 256, v / 16777216 % 256]

@[simp] theorem u32le_length (v : Nat) : (u32le v).length = 4 := rfl

theorem hci_write_u8_pos (s : Hci) (v : Nat) (hp : 0 < s.payload_size) :
    hci_write_u8 s v =
      { s with payload_size := s.payload_size - 1,
               rx := s.rx.tail, tx := s.tx ++ [v % 256] } := by
  rw [hci_write_u8, if_pos hp]
  simp [hci_transfer]

theorem hci_write_list_spec : ∀ (bytes : List Nat) (s : Hci),
    bytes.length ≤ s.payload_size →
    hci_write_list s bytes =
      { s with payload_size := s.payload_size - bytes.length,
               rx := s.rx.drop bytes.length,
               tx := s.tx ++ bytes.map (fun b => b % 256) } := by
  intro bytes
  induction bytes with
  | nil => intro s h; simp [hci_write_list]
  | cons b bs ih =>
      intro s h
      have h1 : 0 < s.payload_size := by simp at h; omega
      have h2 : bs.length ≤ s.payload_size - 1 := by simp at h; omega
      rw [hci_write_list, List.foldl_cons, ← hci_write_list,
        hci_write_u8_pos s b h1, ih _ h2]
      simp only [List.map_cons, List.length_cons, List.append_assoc,
        List.singleton_append, ← List.drop_one, List.drop_drop, Nat.sub_sub,
        Nat.add_comm 1 bs.length]

theorem hci_write_u32_eq_list (s : Hci) (v : Nat) :
    hci_write_u32_le s v = hci_write_list s (u32le v) := rfl

theorem hci_write_u32_le_spec (s : Hci) (v : Nat) (hp : 4 ≤ s.payload_size) :
    hci_write_u32_le s v =
      { s with payload_size := s.payload_size - 4,
               rx := s.rx.drop 4, tx := s.tx ++ u32le v } := by
  rw [hci_write_u32_eq_list, hci_write_list_spec (u32le v) s (by simp; omega)]
  have hmap : (u32le v).map (fun b => b % 256) = u32le v := by
    simp [u32le, Nat.mod_mod_of_dvd _ dvd_rfl]
  rw [hmap, u32le_length]

-- Frame protocol: outbound command and data headers.

/-- Declared payload length of a command frame with args-size n, as computed
on line 545: 4 message-header bytes + n argument bytes + the pad byte when n
is even (uint16 arithmetic). -/
def hci_cmd_payload (n : Nat) : Nat :=
  (4 + n % 65536 + (if n % 2 = 0 then 1 else 0)) % 65536

/-- The nine fixed bytes a command transaction clocks out before the
arguments (lines 546-555): the 5-byte SPI write-request header followed by
the 4-byte command message header. -/
def cmdHeaderBytes (op n : Nat) : List Nat :=
  [HCI_WRITE % 256, hci_cmd_payload n / 256 % 256, hci_cmd_payload n % 256, 0, 0,
   HCI_TYPE_CMND % 256, op % 65536 % 256, op % 65536 / 256 % 256, n % 65536 % 256]

/-- hci_begin_command (lines 525-556).  The WaitingForAssert handshake of
lines 531-539 (set hci_state, assert chip select, spin until the interrupt
handler restores Idle) exchanges no bytes and touches no field modelled
here, so only the header transmission appears.  uint16 parameters are
reduced mod 65536 on entry. -/
def hci_begin_command (s : Hci) (opcode argsSize : Nat) : Hci :=
  let op := opcode % 65536
  let n := argsSize % 65536
  let pad : Bool := n % 2 == 0
  let payload := (4 + n + (if pad then 1 else 0)) % 65536
  let s := { s with pad := pad, payload_size := payload }
  let s := (hci_transfer s HCI_WRITE).2
  let s := (hci_transfer s (payload / 256)).2
  let s := (hci_transfer s (payload % 256)).2
  let s := (hci_transfer s 0).2
  let s := (hci_transfer s 0).2
  let s := (hci_transfer s HCI_TYPE_CMND).2
  let s := (hci_transfer s (op % 256)).2
  let s := (hci_transfer s (op / 256)).2
  (hci_transfer s n).2

/-- Declared payload length of a data frame (line 617). -/
def hci_data_payload (a b : Nat) : Nat :=
  (4 + (a % 256 + b % 65536) + (if (a % 256 + b % 65536) % 2 = 1 then 1 else 0)) % 65536

/-- The ten fixed bytes a data transaction clocks out before the arguments
and buffer (lines 618-628): the 5-byte SPI write-request header followed by
the 5-byte data message header. -/
def dataHeaderBytes (op a b : Nat) : List Nat :=
  [HCI_WRITE % 256, hci_data_payload a b / 256 % 256, hci_data_payload a b % 256, 0, 0,
   HCI_TYPE_DATA % 256, op % 65536 % 256, a % 256,
   (a % 256 + b % 65536) % 256, (a % 256 + b % 65536) / 256 % 256]

/-- hci_begin_data (lines 595-629); same WaitingForAssert handshake remark
as hci_begin_command.  argsSize is a uint8 and bufferSize a uint16, reduced
on entry; totalSize is their int sum. -/
def hci_begin_data (s : Hci) (opcode argsSize bufferSize : Nat) : Hci :=
  let op := opcode % 65536
  let totalSize := argsSize % 256 + bufferSize % 65536
  let pad : Bool := totalSize % 2 == 1
  let payload := (4 + totalSize + (if pad then 1 else 0)) % 65536
  let s := { s with pad := pad, payload_size := payload }
  let s := (hci_transfer s HCI_WRITE).2
  let s := (hci_transfer s (payload / 256)).2
  let s := (hci_transfer s payload).2
  let s := (hci_transfer s 0).2
  let s := (hci_transfer s 0).2
  let s := (hci_transfer s HCI_TYPE_DATA).2
  let s := (hci_transfer s op).2
  let s := (hci_transfer s (argsSize % 256)).2
  let s := (hci_transfer s totalSize).2
  (hci_transfer s (totalSize / 256)).2

/-- The head of hci_end_command_begin_receive (lines 567-578): arm the
pending-reply slot, clear the availability flags, transmit the trailing pad
byte if the frame needs one, deassert chip select.  The deadline wait that
follows (lines 582-587) is modelled separately by endCommandWaitIdx and
lockedCallbackCount below. -/
def hci_end_command_flush (s : Hci) (event : Nat) : Hci :=
  let s := { s with pending_event := event % 65536,
                    pending_event_available := false,
                    data_available := false }
  if s.pad then (hci_transfer s 0).2 else s

theorem hci_begin_command_spec (s : Hci) (op n : Nat) :
    hci_begin_command s op n =
      { s with pad := (n % 2 == 0), payload_size := hci_cmd_payload n,
               rx := s.rx.drop 9, tx := s.tx ++ cmdHeaderBytes op n } := by
  have hmod : n % 65536 % 2 = n % 2 := Nat.mod_mod_of_dvd n (by norm_num)
  simp only [hci_begin_command, hci_transfer, cmdHeaderBytes, hci_cmd_payload, hmod]
  simp [List.append_assoc, ← List.drop_one, List.drop_drop,
    Nat.mod_mod_of_dvd _ dvd_rfl, HCI_WRITE, HCI_TYPE_CMND]

theorem hci_begin_data_spec (s : Hci) (op a b : Nat) :
    hci_begin_data s op a b =
      { s with pad := ((a % 256 + b % 65536) % 2 == 1),
               payload_size := hci_data_payload a b,
               rx := s.rx.drop 10, tx := s.tx ++ dataHeaderBytes op a b } := by
  simp only [hci_begin_data, hci_transfer, dataHeaderBytes, hci_data_payload]
  simp [List.append_assoc, ← List.drop_one, List.drop_drop,
    Nat.mod_mod_of_dvd _ dvd_rfl, HCI_WRITE, HCI_TYPE_DATA]

theorem hci_end_command_flush_tx (s : Hci) (ev : Nat) :
    (hci_end_command_flush s ev).tx =
      s.tx ++ (if s.pad then [0] else []) := by
  rw [hci_end_command_flush]
  split <;> simp_all [hci_transfer]

/-- C4: for every outbound command frame with argument size n, and every
outbound data frame with argument size a and buffer size m = a + b, exactly
one trailing pad byte is emitted iff the total frame length before padding —
the fixed header bytes actually clocked out (9 for a command, 10 for a data
frame) plus the argument bytes — is not 16-bit aligned, and no pad byte is
emitted otherwise.  The last conjunct ties the pad flag to the single byte
hci_end_command_begin_receive emits. -/
theorem C4_pad_iff_misaligned (s t u : Hci) (op n a b ev : Nat) :
    ((hci_begin_command s op n).tx.length = s.tx.length + 9 ∧
      ((hci_begin_command s op n).pad = true ↔ (9 + n) % 2 = 1)) ∧
    ((hci_begin_data t op a b).tx.length = t.tx.length + 10 ∧
      ((hci_begin_data t op a b).pad = true ↔ (10 + (a + b)) % 2 = 1)) ∧
    (hci_end_command_flush u ev).tx.length =
      u.tx.length + (if u.pad then 1 else 0) := by
  refine ⟨⟨?_, ?_⟩, ⟨?_, ?_⟩, ?_⟩
  · rw [hci_begin_command_spec]; simp [cmdHeaderBytes]
  · rw [hci_begin_command_spec]
    simp only [beq_iff_eq]
    omega
  · rw [hci_begin_data_spec]; simp [dataHeaderBytes]
  · rw [hci_begin_data_spec]
    simp only [beq_iff_eq]
    omega
  · rw [hci_end_command_flush_tx]
    split <;> simp

-- Interrupt dispatcher, event path (hci_dispatch_event, lines 322-391).

/-- The rx_event_type a dispatch reads first (line 325). -/
def hci_event_code (s : Hci) : Nat := (hci_read_u16_le s).1

/-- The state after the three event-header bytes (16-bit event code, line
325, and 8-bit rx_args_size, line 328; the args-size value is read and then
unused by the source). -/
def hci_post_header (s : Hci) : Hci := (hci_read_u8 (hci_read_u16_le s).2).2

/-- The entry loop of the HCI_EVNT_DATA_UNSOL_FREE_BUFF case (lines
373-377): per reported entry, read and discard one u16, then add the second
u16 to hci_available_buffer_count (uint8 accumulation, hence mod 256). -/
def hci_free_buff_loop (s : Hci) : Nat → Hci
  | 0 => s
  | n + 1 =>
      let s1 := (hci_read_u16_le s).2
      let c := (hci_read_u16_le s1).1
      let s2 := (hci_read_u16_le s1).2
      hci_free_buff_loop
        { s2 with available_buffer_count := (s2.available_buffer_count + c) % 256 } n

/-- The switch of hci_dispatch_event over an unsolicited event code (lines
339-384), returning the callback argument (initialised to 0 on line 331 and
assigned only by the TCP close-wait case) together with the updated state.
In the DHCP case the source sets wifi_dhcp before the reads; the reads do
not touch it, so the final state is recorded in one update. -/
def hci_handle_unsol (s : Hci) (ev : Nat) : Nat × Hci :=
  if ev = HCI_EVNT_WLAN_UNSOL_CONNECT then
    (0, { s with wifi_connected := 1 })
  else if ev = HCI_EVNT_WLAN_UNSOL_DISCONNECT then
    (0, { s with wifi_connected := 0, wifi_dhcp := 0 })
  else if ev = HCI_EVNT_WLAN_UNSOL_DHCP then
    let s1 := (hci_read_u8 s).2
    let r3 := hci_read_u8 s1
    let r2 := hci_read_u8 r3.2
    let r1 := hci_read_u8 r2.2
    let r0 := hci_read_u8 r1.2
    (0, { r0.2 with wifi_dhcp := 1, ip_addr3 := r3.1, ip_addr2 := r2.1,
                    ip_addr1 := r1.1, ip_addr0 := r0.1 })
  else if ev = HCI_EVNT_WLAN_UNSOL_TCP_CLOSE_WAIT then
    let s1 := (hci_read_u8 s).2
    hci_read_u32_le s1
  else if ev = HCI_EVNT_DATA_UNSOL_FREE_BUFF then
    let s1 := (hci_read_u8 s).2
    let n := (hci_read_u16_le s1).1
    let s2 := (hci_read_u16_le s1).2
    (0, hci_free_buff_loop s2 n)
  else
    (0, s)

/-- hci_dispatch_event (lines 322-391): read the event header; a code equal
to the awaited hci_pending_event only marks the pending-event slot available
and returns; any other code runs the unsolicited switch, invokes the
external callback once with (event code, argument) and finishes with
hci_end_receive. -/
def hci_dispatch_event (s : Hci) : Hci :=
  let ev := hci_event_code s
  let s2 := hci_post_header s
  if ev = s2.pending_event then
    { s2 with pending_event_available := true }
  else
    let r := hci_handle_unsol s2 ev
    hci_end_receive { r.2 with callbacks := r.2.callbacks ++ [(ev, r.1)] }

@[simp] theorem hci_post_header_pending_event (s : Hci) :
    (hci_post_header s).pending_event = s.pending_event := by
  simp [hci_post_header]

@[simp] theorem hci_post_header_callbacks (s : Hci) :
    (hci_post_header s).callbacks = s.callbacks := by
  simp [hci_post_header]

@[simp] theorem hci_post_header_end_receive_count (s : Hci) :
    (hci_post_header s).end_receive_count = s.end_receive_count := by
  simp [hci_post_header]

theorem hci_free_buff_loop_frame : ∀ (n : Nat) (s : Hci),
    (hci_free_buff_loop s n).callbacks = s.callbacks ∧
    (hci_free_buff_loop s n).end_receive_count = s.end_receive_count := by
  intro n
  induction n with
  | zero => intro s; exact ⟨rfl, rfl⟩
  | succ n ih =>
      intro s
      rw [hci_free_buff_loop]
      refine ⟨?_, ?_⟩
      · rw [(ih _).1]; simp
      · rw [(ih _).2]; simp

theorem hci_handle_unsol_frame (s : Hci) (ev : Nat) :
    (hci_handle_unsol s ev).2.callbacks = s.callbacks ∧
    (hci_handle_unsol s ev).2.end_receive_count = s.end_receive_count := by
  rw [hci_handle_unsol]
  split_ifs <;>
    simp [hci_free_buff_loop_frame]

theorem hci_read_u16_le_cons (s : Hci) (b0 b1 : Nat) (r : List Nat)
    (hrx : s.rx = b0 :: b1 :: r) (hp : 2 ≤ s.payload_size) :
    hci_read_u16_le s =
      (b0 % 256 + 256 * (b1 % 256),
       { s with payload_size := s.payload_size - 2,
                rx := r, tx := s.tx ++ [0, 0] }) := by
  have e1 := hci_read_u8_cons s b0 (b1 :: r) hrx (by omega)
  have e2 := hci_read_u8_cons
    { s with payload_size := s.payload_size - 1, rx := b1 :: r, tx := s.tx ++ [0] }
    b1 r rfl (by dsimp only; omega)
  simp only [hci_read_u16_le, e1, e2]
  simp [Nat.sub_sub, List.append_assoc]

theorem hci_read_u32_le_cons (s : Hci) (b0 b1 b2 b3 : Nat) (r : List Nat)
    (hrx : s.rx = b0 :: b1 :: b2 :: b3 :: r) (hp : 4 ≤ s.payload_size) :
    hci_read_u32_le s =
      (b0 % 256 + 256 * (b1 % 256) + 65536 * (b2 % 256) + 16777216 * (b3 % 256),
       { s with payload_size := s.payload_size - 4,
                rx := r, tx := s.tx ++ [0, 0, 0, 0] }) := by
  have e1 := hci_read_u8_cons s b0 (b1 :: b2 :: b3 :: r) hrx (by omega)
  have e2 := hci_read_u8_cons
    { s with payload_size := s.payload_size - 1, rx := b1 :: b2 :: b3 :: r,
             tx := s.tx ++ [0] }
    b1 (b2 :: b3 :: r) rfl (by dsimp only; omega)
  have e3 := hci_read_u8_cons
    { s with payload_size := s.payload_size - 1 - 1, rx := b2 :: b3 :: r,
             tx := s.tx ++ [0] ++ [0] }
    b2 (b3 :: r) rfl (by dsimp only; omega)
  have e4 := hci_read_u8_cons
    { s with payload_size := s.payload_size - 1 - 1 - 1, rx := b3 :: r,
             tx := s.tx ++ [0] ++ [0] ++ [0] }
    b3 r rfl (by dsimp only; omega)
  simp only [hci_read_u32_le, e1, e2, e3, e4]
  simp [Nat.sub_sub, List.append_assoc]

/-- C6: once the remaining payload counter of the in-flight frame is zero,
every further hci_read_u8 call returns 0, moves no byte on the link, and
leaves the counter at zero (the state is completely unchanged); a call with
a positive counter decrements it by exactly one while clocking one byte in
each direction. -/
theorem C6_read_floor (s : Hci) :
    (s.payload_size = 0 → hci_read_u8 s = (0, s)) ∧
    (0 < s.payload_size →
      (hci_read_u8 s).2.payload_size = s.payload_size - 1 ∧
      (hci_read_u8 s).2.rx = s.rx.tail ∧
      (hci_read_u8 s).2.tx = s.tx ++ [0]) := by
  constructor
  · intro h
    exact hci_read_u8_exhausted s h
  · intro h
    rw [hci_read_u8, if_pos h]
    simp [hci_transfer]

/-- Frame state with an exhausted payload counter, for the C6 witness. -/
def readFloorZeroState : Hci :=
  ⟨[5, 6], [], 0, false, 0, false, false, 0, 0, 0, 0, 0, 0, 0, 0, [], 0⟩

/-- Frame state with three payload bytes remaining, for the C6 witness. -/
def readFloorPosState : Hci :=
  ⟨[5, 6], [], 3, false, 0, false, false, 0, 0, 0, 0, 0, 0, 0, 0, [], 0⟩

theorem C6_read_floor_witness :
    hci_read_u8 readFloorZeroState = (0, readFloorZeroState) ∧
    (hci_read_u8 readFloorPosState).2.payload_size =
      readFloorPosState.payload_size - 1 :=
  ⟨(C6_read_floor readFloorZeroState).1 rfl,
   ((C6_read_floor readFloorPosState).2 (by decide)).1⟩

/-- C5: an incoming event frame whose 16-bit code equals the awaited reply
code only marks the pending-event slot available — the result state is
exactly the post-header state with that one flag set, so no further byte is
parsed, no callback is logged and no end_receive runs.  Any other code,
known or unknown, logs exactly one callback with (event code, extracted
argument) and finishes with end_receive, leaving the payload flushed to
zero. -/
theorem C5_dispatch_event_cases (s : Hci) :
    (hci_event_code s = s.pending_event →
      hci_dispatch_event s =
        { hci_post_header s with pending_event_available := true }) ∧
    (hci_event_code s ≠ s.pending_event →
      (hci_dispatch_event s).callbacks =
        s.callbacks ++
          [(hci_event_code s,
            (hci_handle_unsol (hci_post_header s) (hci_event_code s)).1)] ∧
      (hci_dispatch_event s).end_receive_count = s.end_receive_count + 1 ∧
      (hci_dispatch_event s).payload_size = 0) := by
  constructor
  · intro h
    simp only [hci_dispatch_event, hci_post_header_pending_event]
    rw [if_pos h]
  · intro h
    simp only [hci_dispatch_event, hci_post_header_pending_event]
    rw [if_neg h]
    refine ⟨?_, ?_, ?_⟩
    · rw [hci_end_receive_callbacks]
      rw [(hci_handle_unsol_frame (hci_post_header s) (hci_event_code s)).1,
        hci_post_header_callbacks]
    · rw [hci_end_receive_count_eq]
      rw [(hci_handle_unsol_frame (hci_post_header s) (hci_event_code s)).2,
        hci_post_header_end_receive_count]
    · rw [hci_end_receive_payload]

/-- Event frame whose code 0x1001 matches the awaited reply code, for the C5
witness. -/
def dispatchMatchState : Hci :=
  ⟨[1, 16, 0], [], 10, false, 4097, false, false, 0, 0, 0, 0, 0, 0, 0, 0, [], 0⟩

/-- Event frame carrying an unknown unsolicited code 2, for the C5
witness. -/
def dispatchUnsolState : Hci :=
  ⟨[2, 0, 0], [], 3, false, 65535, false, false, 0, 0, 0, 0, 0, 0, 0, 0, [], 0⟩

theorem C5_dispatch_event_cases_witness :
    hci_dispatch_event dispatchMatchState =
      { hci_post_header dispatchMatchState with pending_event_available := true } ∧
    (hci_dispatch_event dispatchUnsolState).callbacks =
      dispatchUnsolState.callbacks ++
        [(hci_event_code dispatchUnsolState,
          (hci_handle_unsol (hci_post_header dispatchUnsolState)
            (hci_event_code dispatchUnsolState)).1)] :=
  ⟨(C5_dispatch_event_cases dispatchMatchState).1 (by decide),
   ((C5_dispatch_event_cases dispatchUnsolState).2 (by decide)).1⟩

/-- Wire encoding of the entry list of a "buffers freed" event: per entry
one little-endian u16 the driver reads and ignores, then the little-endian
u16 freed count. -/
def entryBytes : List (Nat × Nat) → List Nat
  | [] => []
  | (x, c) :: es =>
      x % 256 :: x / 256 % 256 :: c % 256 :: c / 256 % 256 :: entryBytes es

/-- C8: the "buffers freed" entry loop increases
hci_available_buffer_count by the sum of the per-entry freed counts (as
uint8 arithmetic, hence mod 256) — not by the number of entries; in
particular, whenever no wraparound occurs the count increases by exactly the
sum. -/
theorem C8_free_buffers_sum : ∀ (entries : List (Nat × Nat)) (s : Hci) (rest : List Nat),
    s.rx = entryBytes entries ++ rest →
    4 * entries.length ≤ s.payload_size →
    s.available_buffer_count < 256 →
    (∀ e ∈ entries, e.2 < 65536) →
    (hci_free_buff_loop s entries.length).available_buffer_count =
      (s.available_buffer_count + (entries.map Prod.snd).sum) % 256 ∧
    (s.available_buffer_count + (entries.map Prod.snd).sum < 256 →
      (hci_free_buff_loop s entries.length).available_buffer_count =
        s.available_buffer_count + (entries.map Prod.snd).sum) := by
  intro entries
  induction entries with
  | nil =>
      intro s rest hrx hp ha hc
      constructor
      · simp [hci_free_buff_loop, Nat.mod_eq_of_lt ha]
      · intro h
        simp [hci_free_buff_loop]
  | cons e es ih =>
      obtain ⟨x, c⟩ := e
      intro s rest hrx hp ha hc
      have hc1 : c < 65536 := hc (x, c) (List.mem_cons_self _ _)
      have hlen : 4 * (es.length + 1) ≤ s.payload_size := by simpa using hp
      have e1 := hci_read_u16_le_cons s (x % 256) (x / 256 % 256)
        (c % 256 :: c / 256 % 256 :: (entryBytes es ++ rest))
        (by rw [hrx]; simp [entryBytes]) (by omega)
      have e2 := hci_read_u16_le_cons
        { s with payload_size := s.payload_size - 2,
                 rx := c % 256 :: c / 256 % 256 :: (entryBytes es ++ rest),
                 tx := s.tx ++ [0, 0] }
        (c % 256) (c / 256 % 256) (entryBytes es ++ rest) rfl
        (by dsimp only; omega)
      simp only [List.length_cons, hci_free_buff_loop, e1, e2]
      have H := ih
        { s with payload_size := s.payload_size - 2 - 2,
                 rx := entryBytes es ++ rest,
                 tx := s.tx ++ [0, 0] ++ [0, 0],
                 available_buffer_count :=
                   (s.available_buffer_count +
                     (c % 256 % 256 + 256 * (c / 256 % 256 % 256))) % 256 }
        rest rfl (by dsimp only; omega)
        (by dsimp only; exact Nat.mod_lt _ (by norm_num))
        (fun e he => hc e (List.mem_cons_of_mem _ he))
      constructor
      · rw [H.1]
        dsimp only
        simp only [List.map_cons, List.sum_cons]
        omega
      · intro hlt
        rw [H.1]
        dsimp only
        simp only [List.map_cons, List.sum_cons] at hlt ⊢
        omega

/-- Dispatcher state positioned at the entry list of a "buffers freed" event
reporting two entries with counts 3 and 5, pool at 6 available credits, for
the C8 witness. -/
def freeBuffState : Hci :=
  ⟨entryBytes [(0, 3), (0, 5)], [], 8, false, 0, false, false,
   0, 0, 0, 0, 0, 0, 0, 6, [], 0⟩

theorem C8_free_buffers_sum_witness :
    (hci_free_buff_loop freeBuffState 2).available_buffer_count =
      freeBuffState.available_buffer_count + 8 := by
  have H := (C8_free_buffers_sum [(0, 3), (0, 5)] freeBuffState [] rfl
    (by decide) (by decide) (by decide)).2 (by decide)
  simpa using H

-- Flow-control pool (C1).

/-- Effect on hci_available_buffer_count of one "buffers freed" event whose
entries report the given counts (lines 373-377): uint8 accumulation, mod 256
at each addition.  hci_free_buff_loop realises exactly this update over the
wire encoding (see C8_free_buffers_sum). -/
def applyFrees (a : Nat) (counts : List Nat) : Nat :=
  counts.foldl (fun x c => (x + c) % 256) a

/-- One interleaving step of the flow-control pool with a fixed
hci_buffer_count: a send that passed its busy-wait decrements a positive
credit count by one (lines 994-997); an unsolicited "buffers freed" event
adds each entry's reported count (lines 369-380). -/
inductive FlowStep (total : Nat) : Nat → Nat → Prop
  | send {a : Nat} : 0 < a → FlowStep total a (a - 1)
  | free {a : Nat} (counts : List Nat) : FlowStep total a (applyFrees a counts)

/-- Pool states reachable from bring-up (wlan_init sets
hci_available_buffer_count = hci_buffer_count, line 734) under arbitrary
interleavings of sends and buffers-freed events with arbitrary reported
counts. -/
inductive FlowReach (total : Nat) : Nat → Prop
  | init : FlowReach total total
  | step {a b : Nat} : FlowReach total a → FlowStep total a b → FlowReach total b

/-- Pool reachability when every buffers-freed event respects the protocol
guarantee of reporting in total at most the outstanding credits (the device
frees only buffers that sends consumed). -/
inductive FlowReachGuarded (total : Nat) : Nat → Prop
  | init : FlowReachGuarded total total
  | send {a : Nat} : FlowReachGuarded total a → 0 < a →
      FlowReachGuarded total (a - 1)
  | free {a : Nat} (counts : List Nat) : FlowReachGuarded total a →
      counts.sum ≤ total - a → FlowReachGuarded total (applyFrees a counts)

theorem applyFrees_eq_sum : ∀ (counts : List Nat) (a : Nat),
    a + counts.sum < 256 → applyFrees a counts = a + counts.sum := by
  intro counts
  induction counts with
  | nil => intro a h; simp [applyFrees]
  | cons c cs ih =>
      intro a h
      have hsum : a + c + cs.sum < 256 := by simp at h; omega
      have h1 : (a + c) % 256 = a + c := Nat.mod_eq_of_lt (by omega)
      calc applyFrees a (c :: cs) = applyFrees ((a + c) % 256) cs := rfl
        _ = applyFrees (a + c) cs := by rw [h1]
        _ = a + c + cs.sum := ih (a + c) hsum
        _ = a + (c :: cs).sum := by simp [List.sum_cons]; omega

/-- C1 counterexample: with the pool full at 6 of 6 credits, a single
buffers-freed event reporting one entry of count 1 — allowed by the claimed
"every interleaving", since the code applies the reported counts unchecked —
drives hci_available_buffer_count to 7, exceeding hci_buffer_count. -/
theorem C1_counterexample : FlowReach 6 7 ∧ ¬ (7 ≤ 6) :=
  ⟨FlowReach.step FlowReach.init (show FlowStep 6 6 7 from FlowStep.free [1]),
   by omega⟩

/-- C1 (amended): the pool invariant hci_available_buffer_count ≤
hci_buffer_count holds in every reachable state under every interleaving of
sends and buffers-freed events in which each event reports in total at most
the outstanding credits — the protocol guarantee the driver relies on; with
unconstrained reported counts the invariant fails (see the
counterexample). -/
theorem C1_pool_invariant_guarded (total a : Nat) (htotal : total ≤ 255)
    (h : FlowReachGuarded total a) : a ≤ total := by
  induction h with
  | init => exact le_rfl
  | send _ _ ih => omega
  | free counts _ hle ih =>
      rw [applyFrees_eq_sum counts _ (by omega)]
      omega

theorem C1_pool_invariant_guarded_witness : (6 : Nat) ≤ 6 :=
  C1_pool_invariant_guarded 6 6 (by norm_num) FlowReachGuarded.init

-- closesocket (C2).

/-- The poll iteration at which the busy-wait of closesocket (lines
1019-1021) exits: the first observation of hci_available_buffer_count (a
volatile updated by the interrupt handler, hence an oracle sequence) equal
to hci_buffer_count.  The loop has no timeout, so exiting requires such an
iteration to exist. -/
def closeWaitIdx (availSeq : Nat → Nat) (total : Nat)
    (h : ∃ i, availSeq i = total) : Nat := Nat.find h

/-- closesocket past its busy-wait (lines 1019-1024): in the state carrying
the credit count observed at the exit iteration, emit the
HCI_CMND_CLOSE_SOCKET command frame with the 4-byte socket-descriptor
argument. -/
def closesocket_issue (s : Hci) (availSeq : Nat → Nat) (sd : Nat)
    (h : ∃ i, availSeq i = s.buffer_count) : Hci :=
  let w := { s with
    available_buffer_count := availSeq (closeWaitIdx availSeq s.buffer_count h) }
  hci_write_u32_le (hci_begin_command w HCI_CMND_CLOSE_SOCKET 4) sd

/-- C2: the HCI_CMND_CLOSE_SOCKET frame is emitted only in a state whose
credit count equals hci_buffer_count: the wait exits at the first full-pool
poll (at every earlier poll the pool was not full, and no close byte was
sent), and the frame then emitted is exactly the close-command header plus
the socket descriptor. -/
theorem C2_close_waits_full_pool (s : Hci) (availSeq : Nat → Nat) (sd : Nat)
    (h : ∃ i, availSeq i = s.buffer_count) :
    (closesocket_issue s availSeq sd h).available_buffer_count = s.buffer_count ∧
    (∀ j, j < closeWaitIdx availSeq s.buffer_count h →
      availSeq j ≠ s.buffer_count) ∧
    (closesocket_issue s availSeq sd h).tx =
      s.tx ++ cmdHeaderBytes HCI_CMND_CLOSE_SOCKET 4 ++ u32le sd := by
  have e0 := hci_begin_command_spec
    { s with available_buffer_count :=
        availSeq (closeWaitIdx availSeq s.buffer_count h) }
    HCI_CMND_CLOSE_SOCKET 4
  have hpay : hci_cmd_payload 4 = 9 := by decide
  have e1 := hci_write_u32_le_spec
    (hci_begin_command
      { s with available_buffer_count :=
          availSeq (closeWaitIdx availSeq s.buffer_count h) }
      HCI_CMND_CLOSE_SOCKET 4) sd
    (by rw [e0]; dsimp only; rw [hpay]; omega)
  refine ⟨?_, ?_, ?_⟩
  · simp only [closesocket_issue, e1, e0]
    exact Nat.find_spec h
  · intro j hj
    exact Nat.find_min h hj
  · simp only [closesocket_issue]
    rw [e1]
    dsimp only
    rw [e0]

/-- Oracle for the C2 witness: the pool is observed full (6 of 6) from poll
1 on. -/
def closeAvailSeq : Nat → Nat := fun i => if i = 0 then 3 else 6

/-- Driver state at closesocket entry for the C2 witness: 6 total credits,
3 momentarily available. -/
def closeState : Hci :=
  ⟨[], [], 0, false, 0, false, false, 0, 0, 0, 0, 0, 0, 6, 3, [], 0⟩

theorem closeStateExit : ∃ i, closeAvailSeq i = closeState.buffer_count :=
  ⟨1, rfl⟩

theorem C2_close_waits_full_pool_witness :
    (closesocket_issue closeState closeAvailSeq 2 closeStateExit).available_buffer_count
      = closeState.buffer_count :=
  (C2_close_waits_full_pool closeState closeAvailSeq 2 closeStateExit).1

-- Command/response deadline wait (C3).

/-- The poll iteration at which the deadline wait of
hci_end_command_begin_receive (lines 582-584) exits.  The loop spins while
the pending-event slot is unavailable and millis() has not passed tmr, so it
exits at the first iteration observing the slot available (short-circuit:
millis is then not consulted) or the clock past the deadline.  avail i is
the value of the interrupt-written availability flag at poll i; clock i is
the millis() sample associated with poll i; the loop has no fuel, so exiting
requires such an iteration to exist. -/
def endCommandWaitIdx (avail : Nat → Bool) (clock : Nat → Nat) (tmr : Nat)
    (h : ∃ i, avail i = true ∨ tmr < clock i) : Nat := Nat.find h

/-- The timeout check after the wait (lines 585-587): one further millis()
sample — taken after the exit iteration, hence clock (exit + 1) — compared
against tmr; when tmr < now, wifi_callback(HCI_EVNT_CC3000_LOCKED, 0) is
invoked.  The check sits outside the loop, so this value counts the locked
callbacks of one whole wait. -/
def lockedCallbackCount (avail : Nat → Bool) (clock : Nat → Nat) (tmr : Nat)
    (h : ∃ i, avail i = true ∨ tmr < clock i) : Nat :=
  if tmr < clock (endCommandWaitIdx avail clock tmr h + 1) then 1 else 0

/-- C3 (amended): the deadline wait never invokes the locked callback more
than once per call (it cannot fire once per poll iteration); when the
deadline elapses with the slot still unavailable at the exit poll it fires
exactly once — the call returns normally rather than with an error; and the
callback is suppressed when the slot became available and the post-wait
millis() sample is still within the deadline.  The unamended claim —
availability at a poll within the deadline alone suppresses the callback —
fails, because the check re-samples millis() after the loop (see the
counterexample). -/
theorem C3_locked_callback (avail : Nat → Bool) (clock : Nat → Nat) (tmr : Nat)
    (h : ∃ i, avail i = true ∨ tmr < clock i)
    (mono : ∀ i j, i ≤ j → clock i ≤ clock j) :
    lockedCallbackCount avail clock tmr h ≤ 1 ∧
    (avail (endCommandWaitIdx avail clock tmr h) = false →
      lockedCallbackCount avail clock tmr h = 1) ∧
    (clock (endCommandWaitIdx avail clock tmr h + 1) ≤ tmr →
      lockedCallbackCount avail clock tmr h = 0) := by
  have hidx : endCommandWaitIdx avail clock tmr h = Nat.find h := rfl
  refine ⟨?_, ?_, ?_⟩
  · rw [lockedCallbackCount]
    split <;> omega
  · intro hav
    rw [hidx] at hav
    have hspec := Nat.find_spec h
    have ht : tmr < clock (Nat.find h) := by
      cases hspec with
      | inl h1 => rw [hav] at h1; simp at h1
      | inr h2 => exact h2
    have hmono := mono (Nat.find h) (Nat.find h + 1) (Nat.le_succ _)
    rw [lockedCallbackCount, hidx, if_pos (by omega)]
  · intro hle
    rw [lockedCallbackCount, if_neg (by omega)]

/-- Oracle for the C3 counterexample: the reply arrives at once. -/
def cexAvail : Nat → Bool := fun _ => true

/-- Clock for the C3 counterexample: 6 ms pass between consecutive millis()
samples. -/
def cexClock : Nat → Nat := fun i => 6 * i

theorem cexExit : ∃ i, cexAvail i = true ∨ 5 < cexClock i := ⟨0, Or.inl rfl⟩

/-- C3 counterexample: with deadline tmr = 5, the pending slot is available
at the exit poll and the clock there reads 0, within the deadline — yet the
post-loop check samples millis() again (now 6 > 5) and the locked callback
fires anyway, falsifying the claim that the callback is not invoked when the
slot becomes available before the deadline. -/
theorem C3_counterexample :
    cexAvail (endCommandWaitIdx cexAvail cexClock 5 cexExit) = true ∧
    cexClock (endCommandWaitIdx cexAvail cexClock 5 cexExit) ≤ 5 ∧
    lockedCallbackCount cexAvail cexClock 5 cexExit = 1 := by
  have h0 : endCommandWaitIdx cexAvail cexClock 5 cexExit = 0 := by
    rw [endCommandWaitIdx]
    exact (Nat.find_eq_zero cexExit).mpr (Or.inl rfl)
  refine ⟨by rw [h0]; rfl, by rw [h0]; decide, ?_⟩
  rw [lockedCallbackCount, h0]
  decide

/-- Oracle for the C3 witness: the reply never arrives. -/
def witAvail : Nat → Bool := fun _ => false

/-- Clock for the C3 witness: one ms per sample. -/
def witClock : Nat → Nat := fun i => i

theorem witExit : ∃ i, witAvail i = true ∨ 3 < witClock i :=
  ⟨4, Or.inr (by decide)⟩

theorem C3_locked_callback_witness :
    lockedCallbackCount witAvail witClock 3 witExit = 1 :=
  (C3_locked_callback witAvail witClock 3 witExit (fun i j hij => hij)).2.1 rfl

-- recv (C7).

/-- Conversion of a u32 read into the C long return_length of recv (32-bit
two's-complement reinterpretation). -/
def toLong (v : Nat) : Int :=
  if v % 4294967296 < 2147483648 then ((v % 4294967296 : Nat) : Int)
  else ((v % 4294967296 : Nat) : Int) - 4294967296

/-- The reply-parsing phase of recv (lines 947-960): after the HCI_CMND_RECV
reply event is awaited, read the status byte, the returned socket
descriptor, return_length and return_flags, then close the reply frame;
return_length is the second u32. -/
def recv_reply_parse (r : Hci) : Nat × Hci :=
  let s0 := (hci_read_u8 r).2
  let s1 := (hci_read_u32_le s0).2
  let len := (hci_read_u32_le s1).1
  let s2 := (hci_read_u32_le s1).2
  let s3 := (hci_read_u32_le s2).2
  (len, hci_end_receive s3)

/-- The payload copy loop of recv (lines 975-976): n bounded byte reads into
the caller buffer, front to back. -/
def recvCopy (s : Hci) : Nat → List Nat × Hci
  | 0 => ([], s)
  | n + 1 =>
      ((hci_read_u8 s).1 :: (recvCopy (hci_read_u8 s).2 n).1,
       (recvCopy (hci_read_u8 s).2 n).2)

/-- recv past the command phase (lines 947-981): parse the reply; for a
positive return_length, wait on the data-ready flag (hci_wait_data spins
without effect; d is the frame state the interrupt handler leaves after
hci_dispatch_data), clamp return_length to the caller's buffer size, copy
that many bytes into the buffer and close the data frame; for a
non-positive return_length return it with no copy and no data wait.
Result: (value recv returns, bytes stored in the caller's buffer, final
frame state). -/
def recv (size : Int) (r d : Hci) : Int × List Nat × Hci :=
  let L := toLong (recv_reply_parse r).1
  if 0 < L then
    let len := if size < L then size else L
    let c := recvCopy d len.toNat
    (len, c.1, hci_end_receive c.2)
  else
    (L, [], d)

theorem recvCopy_length : ∀ (n : Nat) (s : Hci),
    (recvCopy s n).1.length = n := by
  intro n
  induction n with
  | zero => intro s; rfl
  | succ n ih => intro s; simp [recvCopy, ih]

theorem recvCopy_end_receive_count : ∀ (n : Nat) (s : Hci),
    (recvCopy s n).2.end_receive_count = s.end_receive_count := by
  intro n
  induction n with
  | zero => intro s; rfl
  | succ n ih => intro s; simp [recvCopy, ih]

/-- C7: for a recv whose reply reports return_length L > 0 and a
non-negative caller buffer size: when L is at most the buffer size, exactly
L bytes are stored in the buffer and recv returns L; when L exceeds the
buffer size, exactly buffer-size bytes are stored and the buffer size is
returned; in both cases the data frame is then closed — its remaining
payload drained to zero with one end_receive — so the un-copied remainder
is read off the link and discarded. -/
theorem C7_recv_truncation (size : Int) (r d : Hci)
    (hL : 0 < toLong (recv_reply_parse r).1) (hs : 0 ≤ size) :
    (toLong (recv_reply_parse r).1 ≤ size →
      (recv size r d).1 = toLong (recv_reply_parse r).1 ∧
      (recv size r d).2.1.length = (toLong (recv_reply_parse r).1).toNat) ∧
    (size < toLong (recv_reply_parse r).1 →
      (recv size r d).1 = size ∧
      (recv size r d).2.1.length = size.toNat) ∧
    (recv size r d).2.2.payload_size = 0 ∧
    (recv size r d).2.2.end_receive_count = d.end_receive_count + 1 := by
  simp only [recv, if_pos hL]
  refine ⟨?_, ?_, ?_, ?_⟩
  · intro hle
    rw [if_neg (not_lt.mpr hle)]
    exact ⟨rfl, recvCopy_length _ _⟩
  · intro hlt
    rw [if_pos hlt]
    exact ⟨rfl, recvCopy_length _ _⟩
  · simp
  · simp [recvCopy_end_receive_count]

/-- Reply frame reporting return_length 40 for the C7 witness: status byte,
4-byte sd, the length 40 little-endian, 4-byte flags. -/
def recvReplyState : Hci :=
  ⟨[0, 0, 0, 0, 0, 40, 0, 0, 0, 0, 0, 0, 0], [], 13, false, 0, false, false,
   0, 0, 0, 0, 0, 0, 0, 0, [], 0⟩

/-- Data frame with a 40-byte payload for the C7 witness. -/
def recvDataState : Hci :=
  ⟨[], [], 40, false, 0, false, false, 0, 0, 0, 0, 0, 0, 0, 0, [], 0⟩

theorem C7_recv_truncation_witness :
    (recv 100 recvReplyState recvDataState).1 = 40 ∧
    (recv 100 recvReplyState recvDataState).2.1.length = 40 ∧
    (recv 100 recvReplyState recvDataState).2.2.payload_size = 0 := by
  have h40 : toLong (recv_reply_parse recvReplyState).1 = 40 := by decide
  have H := C7_recv_truncation 100 recvReplyState recvDataState
    (by rw [h40]; decide) (by decide)
  obtain ⟨H1, _, H3, _⟩ := H
  have H1' := H1 (by rw [h40]; decide)
  refine ⟨?_, ?_, H3⟩
  · rw [H1'.1, h40]
  · rw [H1'.2, h40]
    rfl

-- socket (C9).

/-- The command phase of socket (lines 847-860): begin the HCI_CMND_SOCKET
frame with a 12-byte argument block and write the three u32 arguments
domain, type, protocol. -/
def socket_command (s : Hci) (domain stype protocol : Nat) : Hci :=
  let s1 := hci_begin_command s HCI_CMND_SOCKET 12
  let s2 := hci_write_u32_le s1 domain
  let s3 := hci_write_u32_le s2 stype
  hci_write_u32_le s3 protocol

/-- hci_end_command_receive_u32_result (lines 667-680), reply side: once the
awaited reply event's header has been consumed by the dispatcher, read the
status byte, then the 32-bit result, then close the frame. -/
def hci_end_command_receive_u32_result (r : Hci) : Nat × Hci :=
  let s0 := (hci_read_u8 r).2
  let res := (hci_read_u32_le s0).1
  let s1 := (hci_read_u32_le s0).2
  (res, hci_end_receive s1)

/-- The value socket returns (line 861): the u32 result of the matching
reply. -/
def socket_return (r : Hci) : Nat := (hci_end_command_receive_u32_result r).1

/-- C9: socket(AF_INET, SOCK_STREAM, 0) clocks out, after the command
header, exactly the 12-byte argument block — AF_INET, SOCK_STREAM and 0,
each as a 32-bit little-endian integer — and the value it returns is the
32-bit integer assembled from the four bytes that follow the status byte of
the matching reply event. -/
theorem C9_socket_marshalling (s r : Hci) (st b0 b1 b2 b3 : Nat)
    (rest : List Nat)
    (hr : r.rx = st :: b0 :: b1 :: b2 :: b3 :: rest)
    (hp : 5 ≤ r.payload_size) :
    (socket_command s AF_INET SOCK_STREAM 0).tx =
      (hci_begin_command s HCI_CMND_SOCKET 12).tx ++
        (u32le AF_INET ++ u32le SOCK_STREAM ++ u32le 0) ∧
    (u32le AF_INET ++ u32le SOCK_STREAM ++ u32le 0).length = 12 ∧
    socket_return r =
      b0 % 256 + 256 * (b1 % 256) + 65536 * (b2 % 256) +
        16777216 * (b3 % 256) := by
  have hbp : (hci_begin_command s HCI_CMND_SOCKET 12).payload_size = 17 := by
    rw [hci_begin_command_spec]
    dsimp only
    decide
  have e1 := hci_write_u32_le_spec (hci_begin_command s HCI_CMND_SOCKET 12)
    AF_INET (by rw [hbp]; omega)
  have e2 := hci_write_u32_le_spec
    (hci_write_u32_le (hci_begin_command s HCI_CMND_SOCKET 12) AF_INET)
    SOCK_STREAM (by rw [e1]; dsimp only; rw [hbp]; omega)
  have e3 := hci_write_u32_le_spec
    (hci_write_u32_le
      (hci_write_u32_le (hci_begin_command s HCI_CMND_SOCKET 12) AF_INET)
      SOCK_STREAM)
    0 (by rw [e2]; dsimp only; rw [e1]; dsimp only; rw [hbp]; omega)
  refine ⟨?_, by rfl, ?_⟩
  · simp only [socket_command]
    rw [e3]
    dsimp only
    rw [e2]
    dsimp only
    rw [e1]
    dsimp only
    simp [List.append_assoc]
  · have f1 := hci_read_u8_cons r st (b0 :: b1 :: b2 :: b3 :: rest) hr
      (by omega)
    have f2 := hci_read_u32_le_cons
      { r with payload_size := r.payload_size - 1,
               rx := b0 :: b1 :: b2 :: b3 :: rest, tx := r.tx ++ [0] }
      b0 b1 b2 b3 rest rfl (by dsimp only; omega)
    simp only [socket_return, hci_end_command_receive_u32_result, f1, f2]

/-- Reply frame for the C9 witness: status byte 0 followed by the result
value 7 little-endian. -/
def socketReplyState : Hci :=
  ⟨[0, 7, 0, 0, 0], [], 5, false, 0, false, false, 0, 0, 0, 0, 0, 0, 0, 0,
   [], 0⟩

/-- Fresh link state for the C9 witness command phase. -/
def socketCmdState : Hci :=
  ⟨[], [], 0, false, 0, false, false, 0, 0, 0, 0, 0, 0, 0, 0, [], 0⟩

theorem C9_socket_marshalling_witness :
    socket_return socketReplyState = 7 ∧
    (socket_command socketCmdState AF_INET SOCK_STREAM 0).tx =
      (hci_begin_command socketCmdState HCI_CMND_SOCKET 12).tx ++
        (u32le AF_INET ++ u32le SOCK_STREAM ++ u32le 0) := by
  have H := C9_socket_marshalling socketCmdState socketReplyState 0 7 0 0 0 []
    rfl (by decide)
  exact ⟨by simpa using H.2.2, H.1⟩

-- connect (C10).

/-- connect (lines 1083-1106), command phase.  A null addr or zero addrlen
returns EFAIL immediately, before any link activity, the driver state
unchanged.  Otherwise the caller's addrlen is overridden to 8 (line 1096)
and the HCI_CMND_CONNECT frame is begun with argument size 12 + 8, followed
by sd, the constant 0x08, the overridden address length and exactly the
first 8 bytes at addr.  The first component distinguishes the early EFAIL
return (some EFAIL) from the path that proceeds to await the reply
(none). -/
def connect_command (s : Hci) (sd : Nat) (addr : Option (Nat → Nat))
    (addrlen : Int) : Option Int × Hci :=
  match addr with
  | none => (some EFAIL, s)
  | some a =>
      if addrlen = 0 then (some EFAIL, s)
      else
        let alen : Nat := 8
        let s1 := hci_begin_command s HCI_CMND_CONNECT (12 + alen)
        let s2 := hci_write_u32_le s1 sd
        let s3 := hci_write_u32_le s2 8
        let s4 := hci_write_u32_le s3 alen
        let s5 := hci_write_list s4 ((List.range alen).map a)
        (none, s5)

/-- C10: a connect with a null address or a zero address length returns
EFAIL immediately with the state untouched — no byte transmitted, no shared
field modified.  Every call that proceeds ignores the caller-supplied
addrlen: it marshals sd, the constant 8, the address-length field 8, and
exactly 8 address bytes, independently of the addrlen value. -/
theorem C10_connect_guard_marshal (s : Hci) (sd : Nat) (a : Nat → Nat)
    (len0 len : Int) (hlen : len ≠ 0) :
    connect_command s sd none len0 = (some EFAIL, s) ∧
    connect_command s sd (some a) 0 = (some EFAIL, s) ∧
    (connect_command s sd (some a) len).1 = none ∧
    (connect_command s sd (some a) len).2.tx =
      (hci_begin_command s HCI_CMND_CONNECT 20).tx ++
        u32le sd ++ u32le 8 ++ u32le 8 ++
        (List.range 8).map (fun i => a i % 256) := by
  have hbp : (hci_begin_command s HCI_CMND_CONNECT 20).payload_size = 25 := by
    rw [hci_begin_command_spec]
    dsimp only
    decide
  have e1 := hci_write_u32_le_spec (hci_begin_command s HCI_CMND_CONNECT 20)
    sd (by rw [hbp]; omega)
  have e2 := hci_write_u32_le_spec
    (hci_write_u32_le (hci_begin_command s HCI_CMND_CONNECT 20) sd)
    8 (by rw [e1]; dsimp only; rw [hbp]; omega)
  have e3 := hci_write_u32_le_spec
    (hci_write_u32_le
      (hci_write_u32_le (hci_begin_command s HCI_CMND_CONNECT 20) sd) 8)
    8 (by rw [e2]; dsimp only; rw [e1]; dsimp only; rw [hbp]; omega)
  have e4 := hci_write_list_spec ((List.range 8).map a)
    (hci_write_u32_le
      (hci_write_u32_le
        (hci_write_u32_le (hci_begin_command s HCI_CMND_CONNECT 20) sd) 8) 8)
    (by rw [e3]; dsimp only; rw [e2]; dsimp only; rw [e1]; dsimp only
        rw [hbp]; simp)
  refine ⟨rfl, by simp [connect_command], ?_, ?_⟩
  · simp only [connect_command]
    rw [if_neg hlen]
  · simp only [connect_command]
    rw [if_neg hlen]
    dsimp only
    norm_num
    rw [e4]
    dsimp only
    rw [e3]
    dsimp only
    rw [e2]
    dsimp only
    rw [e1]
    dsimp only
    simp [List.append_assoc, List.map_map, Function.comp]

/-- Fresh link state for the C10 witness. -/
def connectState : Hci :=
  ⟨[], [], 0, false, 0, false, false, 0, 0, 0, 0, 0, 0, 0, 0, [], 0⟩

theorem C10_connect_guard_marshal_witness :
    connect_command connectState 3 none 8 = (some EFAIL, connectState) ∧
    (connect_command connectState 3 (some (fun _ => 9)) 8).1 = none :=
  ⟨(C10_connect_guard_marshal connectState 3 (fun _ => 9) 8 8 (by decide)).1,
   (C10_connect_guard_marshal connectState 3 (fun _ => 9) 8 8
     (by decide)).2.2.1⟩
